import Mathlib

/-!
# Verification of the rigour structural static-analysis engine

Shallow embedding of the algorithmic core of the `rigour` repository:

* the AST metrics gate (`packages/rigour-core/src/gates/ast.ts`,
  class `ASTGate`): cyclomatic complexity, parameter counts and class
  method density;
* the pattern indexer (`packages/rigour-core/src/pattern-index/indexer.ts`,
  class `PatternIndexer`): full build, incremental update and per-node
  pattern extraction;
* the override manager (`OverrideManager`): glob matching and expiry;
* the staleness detector (implementation absent from the source tree,
  modelled from the specification and its test suite).

Timestamps are modelled as natural numbers (milliseconds since the epoch);
content hashing is kept abstract (an arbitrary `String → String` function)
since no claim depends on SHA-256 itself.
-/

namespace Rigour

/-! ## AST model for the metrics gate

`ASTGate.analyzeSourceFile` drives a TypeScript AST via `ts.forEachChild`.
We model a syntax-tree node as a kind plus the list of children that
`ts.forEachChild` would visit.  Only the node kinds the gate inspects are
distinguished; every other node is `otherNode`.  For a class node the
children are its members (the gate only filters members for
`isMethodDeclaration`, and names or heritage clauses are never methods, so
folding them into the child list is harmless).  An arrow function carries
the name of the variable declaration it is assigned to, when any, which is
what `getNodeName` resolves through the parent pointer. -/

/-- Binary-expression operator token, as inspected by the gate
(`n.operatorToken.kind`). -/
inductive BinOp where
  | andAnd   -- AmpersandAmpersandToken
  | barBar   -- BarBarToken
  | otherOp
  deriving DecidableEq, Repr

/-- The node kinds `ASTGate.analyzeSourceFile` distinguishes. -/
inductive NodeKind where
  | ifStmt
  | caseClause
  | defaultClause
  | forStmt
  | forInStmt
  | forOfStmt
  | whileStmt
  | doStmt
  | conditionalExpr
  | binaryExpr (op : BinOp)
  | functionDecl (name : Option String) (paramCount : Nat)
  | methodDecl (name : String) (paramCount : Nat)
  | arrowFunction (boundName : Option String) (paramCount : Nat)
  | classDecl (name : Option String)
  | otherNode
  deriving DecidableEq, Repr

/-- A syntax-tree node: a kind together with the children visited by
`ts.forEachChild`. -/
inductive TSNode where
  | mk (kind : NodeKind) (children : List TSNode)
  deriving Repr

/-- The kind of a node. -/
def TSNode.kind : TSNode → NodeKind
  | .mk k _ => k

/-- The children of a node. -/
def TSNode.children : TSNode → List TSNode
  | .mk _ cs => cs

/-- The `ast` section of the gate configuration.  All three thresholds are
optional in `rigour.yml`. -/
structure AstConfig where
  complexity : Option Nat
  max_methods : Option Nat
  max_params : Option Nat
  deriving Repr

/-- JavaScript `v || d` on an optional numeric config value: `undefined`
and `0` are falsy, so both fall back to the default. -/
def orDefault (v : Option Nat) (d : Nat) : Nat :=
  match v with
  | none => d
  | some n => if n = 0 then d else n

/-- `astConfig.complexity || 10`. -/
def maxComplexityOf (cfg : AstConfig) : Nat := orDefault cfg.complexity 10

/-- `astConfig.max_methods || 10`. -/
def maxMethodsOf (cfg : AstConfig) : Nat := orDefault cfg.max_methods 10

/-- `astConfig.max_params || 5`. -/
def maxParamsOf (cfg : AstConfig) : Nat := orDefault cfg.max_params 5

/-- The test performed on every node visited by the gate's
`countComplexity` closure: branch statements, loops, ternaries, and
short-circuit logical operators in binary expressions. -/
def isComplexityNode (k : NodeKind) : Bool :=
  match k with
  | .ifStmt => true
  | .caseClause => true
  | .defaultClause => true
  | .forStmt => true
  | .forInStmt => true
  | .forOfStmt => true
  | .whileStmt => true
  | .doStmt => true
  | .conditionalExpr => true
  | .binaryExpr op => op = BinOp.andAnd || op = BinOp.barBar
  | _ => false

mutual

/-- The `countComplexity` visitor of `ASTGate.analyzeSourceFile` restricted
to the subtree rooted at one node: test the node, then recurse into its
children via `ts.forEachChild`.  Returns the number of increments the
mutable counter receives over that subtree. -/
def countComplexity : TSNode → Nat
  | .mk k cs => (if isComplexityNode k then 1 else 0) + countComplexityList cs

/-- `countComplexity` summed over a child list, in visit order. -/
def countComplexityList : List TSNode → Nat
  | [] => 0
  | c :: cs => countComplexity c + countComplexityList cs

end

/-- The complexity the gate computes for a function-like node: the counter
starts at `1` and `countComplexity` is invoked on each child
 (`ts.forEachChild(node, countComplexity)`). -/
def complexityOf (n : TSNode) : Nat :=
  1 + countComplexityList n.children

mutual

/-- All nodes of the subtree rooted at a node, the node itself included
(preorder). -/
def descendantsSelf : TSNode → List TSNode
  | .mk k cs => .mk k cs :: descendantsList cs

/-- All nodes of the subtrees rooted in a child list. -/
def descendantsList : List TSNode → List TSNode
  | [] => []
  | c :: cs => descendantsSelf c ++ descendantsList cs

end

/-- The strict descendants of a node: every node properly below it,
nested function bodies included. -/
def strictDescendants (n : TSNode) : List TSNode :=
  descendantsList n.children

/-! ## Failures emitted by the metrics gate -/

/-- The machine-readable metrics payload `ASTGate` attaches to a failure
after pushing it (`(failures[failures.length - 1] as any).metrics = ...`). -/
inductive Metrics where
  | params (count maxAllowed : Nat)
  | complexity (value maxAllowed : Nat)
  | methods (methodCount maxAllowed : Nat)
  deriving DecidableEq, Repr

/-- A violation record. -/
structure Failure where
  id : String
  title : String
  files : List String
  hint : String
  metrics : Option Metrics
  deriving DecidableEq, Repr

/-- Modelled from the spec: the `Gate` base class (and its `createFailure`
helper) is not in the source tree; spec section 3 gives the Violation shape
as rule id, human title, affected file list, optional remediation hint and
optional numeric metrics.  `ASTGate` registers under the gate id
`ast-analysis`. -/
def createFailure (title : String) (files : List String) (hint : String) :
    Failure :=
  { id := "ast-analysis", title := title, files := files, hint := hint,
    metrics := none }

/-- Is the node one of the kinds the gate treats as function-like
(`isFunctionDeclaration || isMethodDeclaration || isArrowFunction`)? -/
def isFunctionLikeKind : NodeKind → Bool
  | .functionDecl _ _ => true
  | .methodDecl _ _ => true
  | .arrowFunction _ _ => true
  | _ => false

/-- `node.parameters.length` for a function-like node. -/
def paramCountOf : NodeKind → Nat
  | .functionDecl _ p => p
  | .methodDecl _ p => p
  | .arrowFunction _ p => p
  | _ => 0

/-- `ASTGate.getNodeName`: declared name, assigned variable name for arrow
functions, with the literal fallbacks of the source. -/
def getNodeName : NodeKind → String
  | .functionDecl (some n) _ => n
  | .functionDecl none _ => "anonymous"
  | .methodDecl n _ => n
  | .arrowFunction (some n) _ => n
  | .arrowFunction none _ => "anonymous arrow"
  | _ => "unknown"

/-- Title of a parameter-count failure. -/
def paramTitle (name : String) (count maxAllowed : Nat) : String :=
  "Function \x27" ++ name ++ "\x27 has " ++ toString count ++
    " parameters (max: " ++ toString maxAllowed ++ ")"

/-- Hint of a parameter-count failure. -/
def paramHint : String :=
  "Reduce number of parameters or use an options object."

/-- Title of a cyclomatic-complexity failure. -/
def complexityTitle (name : String) (value maxAllowed : Nat) : String :=
  "Function \x27" ++ name ++ "\x27 has cyclomatic complexity of " ++
    toString value ++ " (max: " ++ toString maxAllowed ++ ")"

/-- Hint of a cyclomatic-complexity failure. -/
def complexityHint (name : String) : String :=
  "Refactor \x27" ++ name ++ "\x27 into smaller, more focused functions."

/-- Title of a method-density failure. -/
def methodsTitle (name : String) (count maxAllowed : Nat) : String :=
  "Class \x27" ++ name ++ "\x27 has " ++ toString count ++
    " methods (max: " ++ toString maxAllowed ++ ")"

/-- Hint of a method-density failure. -/
def methodsHint (name : String) : String :=
  "Class \x27" ++ name ++
    "\x27 is becoming a \x27God Object\x27. Split it into smaller services."

/-- Failures contributed by the function-metrics block (step 1 of the
`visit` closure) for one node. -/
def functionFailures (cfg : AstConfig) (path : String) (n : TSNode) :
    List Failure :=
  if isFunctionLikeKind n.kind then
    let name := getNodeName n.kind
    let p := paramCountOf n.kind
    let paramFs :=
      if p > maxParamsOf cfg then
        [{ createFailure (paramTitle name p (maxParamsOf cfg)) [path] paramHint
            with metrics := some (.params p (maxParamsOf cfg)) }]
      else []
    let cx := complexityOf n
    let cxFs :=
      if cx > maxComplexityOf cfg then
        [{ createFailure (complexityTitle name cx (maxComplexityOf cfg)) [path]
            (complexityHint name)
            with metrics := some (.complexity cx (maxComplexityOf cfg)) }]
      else []
    paramFs ++ cxFs
  else []

/-- `ts.isMethodDeclaration`, on our node kinds. -/
def isMethodKind : NodeKind → Bool
  | .methodDecl _ _ => true
  | _ => false

/-- `node.members.filter(ts.isMethodDeclaration).length` for a class
node. -/
def methodCountOf (n : TSNode) : Nat :=
  n.children.countP (fun m => isMethodKind m.kind)

/-- Failures contributed by the class-metrics block (step 2 of the `visit`
closure) for one node. -/
def classFailures (cfg : AstConfig) (path : String) (n : TSNode) :
    List Failure :=
  match n.kind with
  | .classDecl nm =>
    let name := nm.getD "Anonymous Class"
    let mc := methodCountOf n
    if mc > maxMethodsOf cfg then
      [{ createFailure (methodsTitle name mc (maxMethodsOf cfg)) [path]
          (methodsHint name)
          with metrics := some (.methods mc (maxMethodsOf cfg)) }]
    else []
  | _ => []

/-- All failures the `visit` closure pushes while standing on one node,
before recursing into its children. -/
def nodeFailures (cfg : AstConfig) (path : String) (n : TSNode) :
    List Failure :=
  functionFailures cfg path n ++ classFailures cfg path n

mutual

/-- The `visit` closure of `ASTGate.analyzeSourceFile` on one subtree:
process the node, then `ts.forEachChild(node, visit)`. -/
def visitFailures (cfg : AstConfig) (path : String) : TSNode → List Failure
  | .mk k cs =>
    nodeFailures cfg path (.mk k cs) ++ visitFailuresList cfg path cs

/-- `visitFailures` over a child list, in visit order. -/
def visitFailuresList (cfg : AstConfig) (path : String) :
    List TSNode → List Failure
  | [] => []
  | c :: cs => visitFailures cfg path c ++ visitFailuresList cfg path cs

end

/-- `ASTGate.analyzeSourceFile`: run `visit` over the top-level nodes of a
source file (`ts.forEachChild(sourceFile, visit)`), accumulating failures
in push order. -/
def analyzeSourceFile (cfg : AstConfig) (path : String)
    (roots : List TSNode) : List Failure :=
  visitFailuresList cfg path roots

/-- Does the failure carry a parameter-count metrics payload? -/
def isParamViolation (f : Failure) : Bool :=
  match f.metrics with
  | some (.params _ _) => true
  | _ => false

/-- Does the failure carry a method-density metrics payload? -/
def isMethodViolation (f : Failure) : Bool :=
  match f.metrics with
  | some (.methods _ _) => true
  | _ => false

/-- Is the node a function-like declaration whose parameter count exceeds
the configured threshold? -/
def offendingParams (cfg : AstConfig) (n : TSNode) : Bool :=
  isFunctionLikeKind n.kind && decide (paramCountOf n.kind > maxParamsOf cfg)

/-- Is the node a class declaration whose direct method count exceeds the
configured threshold? -/
def offendingMethods (cfg : AstConfig) (n : TSNode) : Bool :=
  (match n.kind with | .classDecl _ => true | _ => false) &&
    decide (methodCountOf n > maxMethodsOf cfg)

/-! ## String containment helper -/

/-- Is the first list a prefix of the second? -/
def isPrefixList : List Char → List Char → Bool
  | [], _ => true
  | _ :: _, [] => false
  | a :: as, b :: bs => a = b && isPrefixList as bs

/-- Does the needle occur as a contiguous sublist of the haystack? -/
def containsSub (needle : List Char) : List Char → Bool
  | [] => isPrefixList needle []
  | c :: cs => isPrefixList needle (c :: cs) || containsSub needle cs

/-- JavaScript `hay.includes(needle)`. -/
def strContains (hay needle : String) : Bool :=
  containsSub needle.toList hay.toList

/-! ## Override manager

`OverrideManager` keeps a ledger of `PatternOverride` entries.  Timestamps
(`createdAt`, `expiresAt`, and the query instant `now`) are modelled as
naturals; `new Date(a) < new Date(b)` on ISO strings is the strict order on
those instants. -/

/-- One override ledger entry (`PatternOverride` in `types.ts`). -/
structure PatternOverride where
  pattern : String
  reason : String
  expiresAt : Option Nat
  approvedBy : Option String
  createdAt : Nat
  deriving DecidableEq, Repr

/-- `OverrideManager.isExpired`: an entry without an expiry never expires;
otherwise it is expired once the current instant passes `expiresAt`
(`new Date(override.expiresAt) < new Date()`). -/
def isExpired (o : PatternOverride) (now : Nat) : Bool :=
  match o.expiresAt with
  | none => false
  | some t => t < now

/-- The anchored regular expression
`new RegExp('^' + pattern.replace(/\*/g, '.*') + '$')` applied to a name:
each `*` of the pattern matches any stretch of characters and every other
character matches itself.  (The source escapes no other regex
metacharacter; none of the patterns the claims exercise contains one.) -/
def globRegexTest (ps cs : List Char) : Bool :=
  match ps, cs with
  | [], [] => true
  | [], _ :: _ => false
  | p :: ps1, [] => if p = '*' then globRegexTest ps1 [] else false
  | p :: ps1, c :: cs1 =>
    if p = '*' then
      globRegexTest ps1 (c :: cs1) || globRegexTest (p :: ps1) cs1
    else
      p = c && globRegexTest ps1 cs1
termination_by (ps.length, cs.length)

/-- `OverrideManager.isOverridden`: walk the ledger in order, skip expired
entries, return the first entry whose pattern equals the name exactly or —
when the pattern contains `*` — whose glob regex matches the name. -/
def isOverridden (overrides : List PatternOverride) (now : Nat)
    (name : String) : Option PatternOverride :=
  match overrides with
  | [] => none
  | o :: rest =>
    if isExpired o now then isOverridden rest now name
    else if o.pattern = name then some o
    else if o.pattern.toList.contains '*'
        && globRegexTest o.pattern.toList name.toList then some o
    else isOverridden rest now name

/-- The predicate `isOverridden` effectively searches for: non-expired and
matching exactly or by glob. -/
def matchesOverride (now : Nat) (name : String) (o : PatternOverride) :
    Bool :=
  !isExpired o now &&
    (o.pattern == name ||
      (o.pattern.toList.contains '*'
        && globRegexTest o.pattern.toList name.toList))

/-- `OverrideManager.getActiveOverrides`. -/
def getActiveOverrides (overrides : List PatternOverride) (now : Nat) :
    List PatternOverride :=
  overrides.filter (fun o => !isExpired o now)

/-- `OverrideManager.getExpiredOverrides`. -/
def getExpiredOverrides (overrides : List PatternOverride) (now : Nat) :
    List PatternOverride :=
  overrides.filter (fun o => isExpired o now)

/-- `OverrideManager.cleanupExpired`: the ledger after cleanup and the
number of entries removed. -/
def cleanupExpired (overrides : List PatternOverride) (now : Nat) :
    List PatternOverride × Nat :=
  let kept := overrides.filter (fun o => !isExpired o now)
  (kept, overrides.length - kept.length)

/-! ## Pattern indexer

`PatternIndexer` reads files, hashes their content and extracts
`PatternEntry` records.  The embedding takes the enumerated files as a list
of (relative path, content) pairs, keeps the content hash abstract (any
`String → String` function stands in for truncated SHA-256), and passes the
wall-clock ISO timestamp and the measured duration as parameters.  Files
are processed in concurrency-bounded batches of 10 in the source, but
`Promise.all` preserves order and the orchestrating continuation appends
batch results in order, so the accumulated lists are exactly the per-file
contributions in enumeration order.  Embedding generation (an external
model call, disabled by `DEFAULT_CONFIG.useEmbeddings = false`) is outside
the scope of the claims and not modelled. -/

/-- One indexed declaration (`PatternEntry` in `types.ts`). -/
structure PatternEntry where
  id : String
  type : String
  name : String
  file : String
  line : Nat
  endLine : Nat
  signature : String
  description : String
  keywords : List String
  hash : String
  exported : Bool
  usageCount : Nat
  indexedAt : String
  deriving DecidableEq, Repr

/-- One indexed file (`IndexedFile` in `types.ts`). -/
structure IndexedFile where
  path : String
  hash : String
  patternCount : Nat
  indexedAt : String
  deriving DecidableEq, Repr

/-- Aggregate statistics (`PatternIndexStats`); `byType` is the record of
per-type counts, as an insertion-ordered association list. -/
structure PatternIndexStats where
  totalPatterns : Nat
  totalFiles : Nat
  byType : List (String × Nat)
  indexDurationMs : Nat
  deriving DecidableEq, Repr

/-- The catalog (`PatternIndex`). -/
structure PatternIndex where
  version : String
  lastUpdated : String
  rootDir : String
  patterns : List PatternEntry
  stats : PatternIndexStats
  files : List IndexedFile
  deriving DecidableEq, Repr

/-- `byType[pattern.type] = (byType[pattern.type] || 0) + 1` on the
association-list model of the record. -/
def bumpType : List (String × Nat) → String → List (String × Nat)
  | [], t => [(t, 1)]
  | (k, v) :: rest, t =>
    if k = t then (k, v + 1) :: rest else (k, v) :: bumpType rest t

/-- `PatternIndexer.calculateStats`. -/
def calculateStats (patterns : List PatternEntry) (files : List IndexedFile)
    (durationMs : Nat) : PatternIndexStats :=
  { totalPatterns := patterns.length,
    totalFiles := files.length,
    byType := patterns.foldl (fun m p => bumpType m p.type) [],
    indexDurationMs := durationMs }

/-- The per-file step of `PatternIndexer.buildIndex`: read, hash and
extract inside a `try`; a thrown read/extraction error (modelled as the
abstract extractor returning `none`) is caught and yields `null`, which the
orchestrating continuation drops. -/
def buildFileResult (extract : String → String → Option (List PatternEntry))
    (hash : String → String) (now : String) (f : String × String) :
    Option (List PatternEntry × IndexedFile) :=
  match extract f.1 f.2 with
  | none => none
  | some pats => some (pats, ⟨f.1, hash f.2, pats.length, now⟩)

/-- `PatternIndexer.buildIndex` over an enumerated file list. -/
def buildIndex (extract : String → String → Option (List PatternEntry))
    (hash : String → String) (rootDir : String)
    (files : List (String × String)) (now : String) (dur : Nat) :
    PatternIndex :=
  let results := files.filterMap (buildFileResult extract hash now)
  let patterns := (results.map Prod.fst).flatten
  let indexedFiles := results.map Prod.snd
  { version := "1.0.0", lastUpdated := now, rootDir := rootDir,
    patterns := patterns,
    stats := calculateStats patterns indexedFiles dur,
    files := indexedFiles }

/-- Lookup in `existingFileMap = new Map(existingIndex.files.map(f =>
[f.path, f]))`: a JavaScript `Map` built from a pair list keeps the last
binding per key. -/
def mapGet (fs : List IndexedFile) (p : String) : Option IndexedFile :=
  fs.reverse.find? (fun f => f.path == p)

/-- The per-file step of `PatternIndexer.updateIndex`: if the stored hash
for the path equals the fresh content hash, copy the prior catalog's
patterns for that file and its prior `IndexedFile` record; otherwise
re-extract.  (This branch has no `try`; the extractor is total here, as in
the source.) -/
def updateFileResult (extract : String → String → List PatternEntry)
    (hash : String → String) (existing : PatternIndex) (now : String)
    (f : String × String) : List PatternEntry × IndexedFile :=
  let fileHash := hash f.2
  match mapGet existing.files f.1 with
  | some ef =>
    if ef.hash == fileHash then
      (existing.patterns.filter (fun p => p.file == f.1), ef)
    else
      let pats := extract f.1 f.2
      (pats, ⟨f.1, fileHash, pats.length, now⟩)
  | none =>
    let pats := extract f.1 f.2
    (pats, ⟨f.1, fileHash, pats.length, now⟩)

/-- `PatternIndexer.updateIndex` over an enumerated file list. -/
def updateIndex (extract : String → String → List PatternEntry)
    (hash : String → String) (existing : PatternIndex) (rootDir : String)
    (files : List (String × String)) (now : String) (dur : Nat) :
    PatternIndex :=
  let results := files.map (updateFileResult extract hash existing now)
  let patterns := (results.map Prod.fst).flatten
  let indexedFiles := results.map Prod.snd
  { version := "1.0.0", lastUpdated := now, rootDir := rootDir,
    patterns := patterns,
    stats := calculateStats patterns indexedFiles dur,
    files := indexedFiles }

/-- `extractPatterns` tags every produced entry with the relative path of
the file it came from (`file: relativePath` in every `createPatternEntry`
call site). -/
def pathConsistent (extract : String → String → List PatternEntry) : Prop :=
  ∀ p c, ∀ e ∈ extract p c, e.file = p

/-! ## Pattern extraction from a variable statement

`PatternIndexer.nodeToPattern` hits at most one arm per node; for a
variable statement it loops over `node.declarationList.declarations` and
returns on the first binding that is a named arrow/function expression or
an all-uppercase `const` literal.  We model the fields of the statement the
arm reads: constness, per-declaration binding name (a plain identifier or
not) and initializer form, plus the statement-level values feeding
`createPatternEntry` (text, doc comment, exported flag, line span).  The
arrow/function initializer carries whether its body contains JSX
(`containsJSX`) and the parameter-derived signature string
(`getArrowFunctionSignature`). -/

/-- Initializer forms distinguished by the variable-statement arm. -/
inductive VarInit where
  | arrowFn (hasJSX : Bool) (sig : String)
  | funcExpr (hasJSX : Bool) (sig : String)
  | stringLit
  | numericLit
  | objectLit
  | otherInit
  deriving DecidableEq, Repr

/-- One variable declaration: binding name when it is a plain identifier,
and its initializer when present. -/
structure VarDecl where
  name : Option String
  initializer : Option VarInit
  deriving DecidableEq, Repr

/-- One variable statement. -/
structure VarStatement where
  isConst : Bool
  declarations : List VarDecl
  exported : Bool
  doc : String
  text : String
  line : Nat
  endLine : Nat
  deriving DecidableEq, Repr

/-- ASCII lower-case letter (`[a-z]`). -/
def isAsciiLower (c : Char) : Bool := 'a' ≤ c && c ≤ 'z'

/-- ASCII upper-case letter (`[A-Z]`). -/
def isAsciiUpper (c : Char) : Bool := 'A' ≤ c && c ≤ 'Z'

/-- JavaScript `c === c.toUpperCase()` on one character. -/
def isUpperInvariant (c : Char) : Bool := c.toUpper == c

/-- JavaScript `name === name.toUpperCase()`, character-wise. -/
def isAllUpper (name : String) : Bool :=
  name.toList.all isUpperInvariant

/-- JavaScript `s.startsWith(pre)`. -/
def strStartsWith (s pre : String) : Bool :=
  isPrefixList pre.toList s.toList

/-- `PatternIndexer.detectFunctionType`: hook, component, middleware,
handler, factory or plain function, from the name and the presence of JSX
in the node. -/
def detectFunctionType (name : String) (hasJSX : Bool) : String :=
  let cs := name.toList
  if strStartsWith name "use" && decide (cs.length > 3)
      && isUpperInvariant (cs.getD 3 ' ') then "hook"
  else if isUpperInvariant (cs.getD 0 ' ') && hasJSX then "component"
  else if containsSub "Middleware".toList cs
      || containsSub "middleware".toList cs then "middleware"
  else if containsSub "Handler".toList cs
      || containsSub "handler".toList cs then "handler"
  else if strStartsWith name "create" || strStartsWith name "make"
      || containsSub "Factory".toList cs then "factory"
  else "function"

/-- The first regex pass of `extractKeywords`,
`/([a-z])([A-Z])/g → "$1 $2"`: insert a space at every lower-to-upper
boundary. -/
def splitLowerUpper : List Char → List Char
  | [] => []
  | [c] => [c]
  | c1 :: c2 :: rest =>
    if isAsciiLower c1 && isAsciiUpper c2 then
      c1 :: ' ' :: splitLowerUpper (c2 :: rest)
    else c1 :: splitLowerUpper (c2 :: rest)

/-- The second regex pass, `/([A-Z]+)([A-Z][a-z])/g → "$1 $2"`: split an
upper-case run before its last letter when that letter starts a new
word. -/
def splitUpperRun : List Char → List Char
  | c1 :: c2 :: c3 :: rest =>
    if isAsciiUpper c1 && isAsciiUpper c2 && isAsciiLower c3 then
      c1 :: ' ' :: splitUpperRun (c2 :: c3 :: rest)
    else c1 :: splitUpperRun (c2 :: c3 :: rest)
  | cs => cs

/-- A separator for the final `split(/[\s_-]+/)`. -/
def isSepChar (c : Char) : Bool := c == ' ' || c == '_' || c == '-'

/-- Split into chunks at separator characters.  (The `+` quantifier of the
source regex merges separator runs; the resulting empty chunks are dropped
by the length filter either way.) -/
def splitSep (acc : List Char) : List Char → List (List Char)
  | [] => [acc.reverse]
  | c :: cs =>
    if isSepChar c then acc.reverse :: splitSep [] cs
    else splitSep (c :: acc) cs

/-- First-occurrence deduplication, as `[...new Set(words)]`. -/
def dedupFirst (seen : List String) : List String → List String
  | [] => []
  | w :: ws =>
    if seen.contains w then dedupFirst seen ws
    else w :: dedupFirst (w :: seen) ws

/-- `PatternIndexer.extractKeywords`: split camel/Pascal case, lower-case,
split on separators, keep words longer than one character, deduplicate. -/
def extractKeywords (name : String) : List String :=
  let words := (splitSep [] (splitUpperRun (splitLowerUpper name.toList))).map
    (fun chunk => String.mk (chunk.map Char.toLower))
  dedupFirst [] (words.filter (fun w => w.length > 1))

/-- `PatternIndexer.createPatternEntry`: id is the hash of
`file:name:line`, content hash is the hash of the declaration text. -/
def createPatternEntry (hash : String → String) (now : String)
    (type name file : String) (line endLine : Nat)
    (signature description : String) (keywords : List String)
    (content : String) (exported : Bool) : PatternEntry :=
  { id := hash (file ++ ":" ++ name ++ ":" ++ toString line),
    type := type, name := name, file := file, line := line,
    endLine := endLine, signature := signature, description := description,
    keywords := keywords, hash := hash content, exported := exported,
    usageCount := 0, indexedAt := now }

/-- The entry built for one qualifying binding of a variable statement. -/
def varDeclEntry (hash : String → String) (now file : String)
    (vs : VarStatement) (n : String) (init : VarInit) : PatternEntry :=
  match init with
  | .arrowFn jsx sig =>
    createPatternEntry hash now (detectFunctionType n jsx) n file vs.line
      vs.endLine sig vs.doc (extractKeywords n) vs.text vs.exported
  | .funcExpr jsx sig =>
    createPatternEntry hash now (detectFunctionType n jsx) n file vs.line
      vs.endLine sig vs.doc (extractKeywords n) vs.text vs.exported
  | _ =>
    createPatternEntry hash now "constant" n file vs.line vs.endLine ""
      vs.doc (extractKeywords n) vs.text vs.exported

/-- The loop over `node.declarationList.declarations` in the
variable-statement arm of `nodeToPattern`: skip bindings that are not
plain identifiers, lack an initializer or have a too-short name
(`continue`); return on the first arrow/function-expression initializer,
or on the first literal initializer of an all-uppercase `const` binding;
otherwise fall through to the next declaration. -/
def varStatementLoop (minNameLength : Nat) (hash : String → String)
    (now file : String) (vs : VarStatement) :
    List VarDecl → Option PatternEntry
  | [] => none
  | d :: rest =>
    match d.name, d.initializer with
    | some n, some init =>
      if n.length < minNameLength then
        varStatementLoop minNameLength hash now file vs rest
      else
        match init with
        | .arrowFn _ _ => some (varDeclEntry hash now file vs n init)
        | .funcExpr _ _ => some (varDeclEntry hash now file vs n init)
        | .stringLit | .numericLit | .objectLit =>
          if vs.isConst && isAllUpper n then
            some (varDeclEntry hash now file vs n init)
          else varStatementLoop minNameLength hash now file vs rest
        | .otherInit => varStatementLoop minNameLength hash now file vs rest
    | _, _ => varStatementLoop minNameLength hash now file vs rest

/-- The variable-statement arm of `PatternIndexer.nodeToPattern`
(returns at most one entry per variable statement). -/
def varStatementPattern (minNameLength : Nat) (hash : String → String)
    (now file : String) (vs : VarStatement) : Option PatternEntry :=
  varStatementLoop minNameLength hash now file vs vs.declarations

/-- Does a declaration qualify for extraction inside a statement of the
given constness?  This is the predicate the loop effectively searches
by. -/
def qualifiesDecl (minNameLength : Nat) (isConst : Bool) (d : VarDecl) :
    Bool :=
  match d.name, d.initializer with
  | some n, some init =>
    if n.length < minNameLength then false
    else
      match init with
      | .arrowFn _ _ => true
      | .funcExpr _ _ => true
      | .stringLit | .numericLit | .objectLit => isConst && isAllUpper n
      | .otherInit => false
  | _, _ => false

/-! ## Staleness detector

Modelled from the spec: the `StalenessDetector` implementation
(`staleness.ts`) is absent from the source tree — only its exports and its
test suite are present.  Spec section 4.5: rules are checked by literal
substring/pattern match against the raw source text; a rule fires only if
its optional owning-library constraint is satisfied by the project's
declared dependencies, and rules with no constraint always apply; each fire
produces an issue inheriting the rule's severity; aggregate status is
DEPRECATED on any error, else STALE on any warning, else FRESH. -/

/-- Severity tier of a deprecation rule or staleness issue. -/
inductive Severity where
  | error
  | warning
  | info
  deriving DecidableEq, Repr

/-- A deprecation rule (`DeprecationEntry` in `types.ts`). -/
structure DeprecationEntry where
  pattern : String
  library : Option String
  deprecatedIn : String
  replacement : String
  severity : Severity
  reason : String
  deriving DecidableEq, Repr

/-- A reported staleness issue. -/
structure StalenessIssue where
  pattern : String
  severity : Severity
  reason : String
  replacement : String
  deriving DecidableEq, Repr

/-- Aggregate staleness status. -/
inductive StalenessStatus where
  | FRESH
  | STALE
  | DEPRECATED
  deriving DecidableEq, Repr

/-- Modelled from the spec: the owning-library constraint of a rule is
satisfied when the rule names no library or the named library is among the
project's declared dependencies. -/
def ruleApplies (deps : List String) (r : DeprecationEntry) : Bool :=
  match r.library with
  | none => true
  | some lib => deps.contains lib

/-- Modelled from the spec: a rule fires on a source text when its library
constraint is satisfied and its pattern occurs in the raw text. -/
def ruleFires (deps : List String) (text : String) (r : DeprecationEntry) :
    Bool :=
  ruleApplies deps r && containsSub r.pattern.toList text.toList

/-- The rules that fire on a text, in catalog order. -/
def firedRules (rules : List DeprecationEntry) (deps : List String)
    (text : String) : List DeprecationEntry :=
  rules.filter (ruleFires deps text)

/-- The issue a firing rule produces, inheriting its severity. -/
def mkIssue (r : DeprecationEntry) : StalenessIssue :=
  { pattern := r.pattern, severity := r.severity, reason := r.reason,
    replacement := r.replacement }

/-- Modelled from the spec: `StalenessDetector.checkStaleness` over an
already-parsed dependency list — the issues of every firing rule and the
aggregate status. -/
def checkStaleness (rules : List DeprecationEntry) (deps : List String)
    (text : String) : StalenessStatus × List StalenessIssue :=
  let issues := (firedRules rules deps text).map mkIssue
  let status :=
    if issues.any (fun i => i.severity == Severity.error) then
      StalenessStatus.DEPRECATED
    else if issues.any (fun i => i.severity == Severity.warning) then
      StalenessStatus.STALE
    else StalenessStatus.FRESH
  (status, issues)

mutual

/-- The imperative counter of `countComplexity` over a subtree equals the
number of branch-like nodes in that subtree. -/
theorem countComplexity_eq_countP (n : TSNode) :
    countComplexity n
      = (descendantsSelf n).countP (fun d => isComplexityNode d.kind) := by
  match n with
  | .mk k cs =>
    rw [countComplexity, descendantsSelf, List.countP_cons,
      countComplexityList_eq_countP cs]
    simp [TSNode.kind]
    omega

/-- List version of `countComplexity_eq_countP`. -/
theorem countComplexityList_eq_countP (cs : List TSNode) :
    countComplexityList cs
      = (descendantsList cs).countP (fun d => isComplexityNode d.kind) := by
  match cs with
  | [] => rfl
  | c :: rest =>
    rw [countComplexityList, descendantsList, List.countP_append,
      countComplexity_eq_countP c, countComplexityList_eq_countP rest]

end

/-- Class failures never carry a parameter-count payload. -/
theorem countP_classFailures_param (cfg : AstConfig) (path : String)
    (m : TSNode) :
    (classFailures cfg path m).countP isParamViolation = 0 := by
  obtain ⟨k, cs⟩ := m
  cases k <;>
    simp [classFailures, TSNode.kind, isParamViolation, createFailure]

/-- Exactly one parameter-count failure is pushed at a node iff the node is
function-like with too many parameters. -/
theorem countP_nodeFailures_param (cfg : AstConfig) (path : String)
    (m : TSNode) :
    (nodeFailures cfg path m).countP isParamViolation
      = if offendingParams cfg m then 1 else 0 := by
  rw [nodeFailures, List.countP_append, countP_classFailures_param]
  obtain ⟨k, cs⟩ := m
  cases k <;>
    simp [functionFailures, offendingParams, isFunctionLikeKind,
      TSNode.kind, List.countP_append, createFailure, paramCountOf] <;>
    split <;> split <;>
    simp [isParamViolation, List.countP_cons, List.countP_nil]

/-- Function failures never carry a method-density payload. -/
theorem countP_functionFailures_methods (cfg : AstConfig) (path : String)
    (m : TSNode) :
    (functionFailures cfg path m).countP isMethodViolation = 0 := by
  obtain ⟨k, cs⟩ := m
  cases k <;>
    simp [functionFailures, isFunctionLikeKind, TSNode.kind,
      List.countP_append, isMethodViolation, createFailure]

/-- Exactly one method-density failure is pushed at a node iff the node is
a class with too many direct methods. -/
theorem countP_nodeFailures_methods (cfg : AstConfig) (path : String)
    (m : TSNode) :
    (nodeFailures cfg path m).countP isMethodViolation
      = if offendingMethods cfg m then 1 else 0 := by
  rw [nodeFailures, List.countP_append, countP_functionFailures_methods]
  obtain ⟨k, cs⟩ := m
  cases k <;>
    simp [classFailures, offendingMethods, TSNode.kind, createFailure] <;>
    split <;>
    simp [isMethodViolation, List.countP_cons, List.countP_nil]

mutual

/-- Lifting a per-node count to the whole `visit` recursion: if each node
contributes one `pr`-failure exactly when `q` holds of it, the failures of
a subtree count the `q`-nodes of that subtree. -/
theorem countP_visitFailures (cfg : AstConfig) (path : String)
    (pr : Failure → Bool) (q : TSNode → Bool)
    (h : ∀ m : TSNode,
      (nodeFailures cfg path m).countP pr = if q m then 1 else 0)
    (n : TSNode) :
    (visitFailures cfg path n).countP pr = (descendantsSelf n).countP q := by
  match n with
  | .mk k cs =>
    rw [visitFailures, descendantsSelf, List.countP_append, List.countP_cons,
      countP_visitFailuresList cfg path pr q h cs, h (.mk k cs)]
    cases hq : q (.mk k cs) <;> simp [hq] <;> omega

/-- List version of `countP_visitFailures`. -/
theorem countP_visitFailuresList (cfg : AstConfig) (path : String)
    (pr : Failure → Bool) (q : TSNode → Bool)
    (h : ∀ m : TSNode,
      (nodeFailures cfg path m).countP pr = if q m then 1 else 0)
    (cs : List TSNode) :
    (visitFailuresList cfg path cs).countP pr
      = (descendantsList cs).countP q := by
  match cs with
  | [] => rfl
  | c :: rest =>
    rw [visitFailuresList, descendantsList, List.countP_append,
      List.countP_append, countP_visitFailures cfg path pr q h c,
      countP_visitFailuresList cfg path pr q h rest]

end

/-- A list is a prefix of itself followed by anything. -/
theorem isPrefixList_append_self (as bs : List Char) :
    isPrefixList as (as ++ bs) = true := by
  induction as with
  | nil => rfl
  | cons a rest ih => simp [isPrefixList, ih]

/-- A prefix occurrence is an occurrence. -/
theorem containsSub_of_isPrefixList (needle hay : List Char)
    (h : isPrefixList needle hay = true) : containsSub needle hay = true := by
  cases hay with
  | nil => simpa [containsSub] using h
  | cons c cs => simp [containsSub, h]

/-- Occurrences survive extending the haystack on the left. -/
theorem containsSub_cons (needle : List Char) (c : Char) (cs : List Char)
    (h : containsSub needle cs = true) :
    containsSub needle (c :: cs) = true := by
  simp [containsSub, h]

/-- A list occurs in any haystack that embeds it between two others. -/
theorem containsSub_append (pre mid post : List Char) :
    containsSub mid (pre ++ (mid ++ post)) = true := by
  induction pre with
  | nil => exact containsSub_of_isPrefixList _ _ (isPrefixList_append_self _ _)
  | cons c rest ih => exact containsSub_cons _ _ _ ih

/-- The title of a method-density failure names the class. -/
theorem strContains_methodsTitle (name : String) (c m : Nat) :
    strContains (methodsTitle name c m) name = true := by
  have h : (methodsTitle name c m).toList
      = "Class \x27".toList ++ (name.toList ++
          ("\x27 has " ++ toString c ++ " methods (max: " ++ toString m
            ++ ")").toList) := by
    simp [methodsTitle, String.toList, String.data_append]
  rw [strContains, h]
  exact containsSub_append _ _ _

/-- The early-return loop of `isOverridden` is a first-match search. -/
theorem isOverridden_eq_find (overrides : List PatternOverride) (now : Nat)
    (name : String) :
    isOverridden overrides now name
      = overrides.find? (matchesOverride now name) := by
  induction overrides with
  | nil => rfl
  | cons o rest ih =>
    rw [isOverridden, List.find?_cons]
    by_cases h1 : isExpired o now
    · simp [matchesOverride, h1, ih]
    · by_cases h2 : o.pattern = name
      · simp [matchesOverride, h1, h2]
      · have h2b : (o.pattern == name) = false := by simpa using h2
        by_cases h3 : '*' ∈ o.pattern.data
        · by_cases h4 : globRegexTest o.pattern.data name.data = true
          · simp [matchesOverride, String.toList, h1, h2, h2b, h3, h4]
          · have h4b : globRegexTest o.pattern.data name.data = false := by
              simpa using h4
            simp [matchesOverride, String.toList, h1, h2, h2b, h3, h4b, ih]
        · simp [matchesOverride, String.toList, h1, h2, h2b, h3, ih]

/-!
## Claim theorems for the override manager
-/

/-- **C5.** `isOverridden(name)` returns the first non-expired entry whose
pattern equals the name exactly or whose pattern, containing `*`, matches
the name under the anchored regex translation of `*` to an any-length
wildcard; an override with pattern `legacy*` matches `legacyFoo` and
`legacyBar` but not `notLegacy`, and the lookup returns null when no entry
matches. -/
theorem c5_isOverridden_first_match :
    (∀ overrides now name,
        isOverridden overrides now name
          = overrides.find? (matchesOverride now name)) ∧
    (∀ overrides now name,
        (∀ o ∈ overrides, matchesOverride now name o = false) →
        isOverridden overrides now name = none) ∧
    isOverridden [⟨"legacy*", "migration", none, none, 0⟩] 0 "legacyFoo"
      = some ⟨"legacy*", "migration", none, none, 0⟩ ∧
    isOverridden [⟨"legacy*", "migration", none, none, 0⟩] 0 "legacyBar"
      = some ⟨"legacy*", "migration", none, none, 0⟩ ∧
    isOverridden [⟨"legacy*", "migration", none, none, 0⟩] 0 "notLegacy"
      = none := by
  refine ⟨isOverridden_eq_find, ?_, ?_, ?_, ?_⟩
  · intro overrides now name h
    rw [isOverridden_eq_find]
    exact List.find?_eq_none.mpr (fun o ho => by simp [h o ho])
  · simp [isOverridden, isExpired, globRegexTest]
  · simp [isOverridden, isExpired, globRegexTest]
  · simp [isOverridden, isExpired, globRegexTest]

/-- Witness for `c5_isOverridden_first_match`: on a ledger whose only entry
matches neither exactly nor by glob, the lookup returns null. -/
theorem c5_isOverridden_first_match_witness :
    isOverridden [⟨"other", "r", none, none, 0⟩] 0 "nameX" = none :=
  c5_isOverridden_first_match.2.1 [⟨"other", "r", none, none, 0⟩] 0 "nameX"
    (by simp [matchesOverride, isExpired, globRegexTest])

/-- **C6.** An entry whose expiry lies strictly in the past at query time is
excluded from `getActiveOverrides()` and never returned by `isOverridden`,
yet it stays observable in the raw ledger (it is exactly what
`getExpiredOverrides` reports) until `cleanupExpired` drops it. -/
theorem c6_expired_overrides (overrides : List PatternOverride) (now : Nat)
    (o : PatternOverride) (h : isExpired o now = true) :
    o ∉ getActiveOverrides overrides now ∧
    (∀ name, isOverridden overrides now name ≠ some o) ∧
    (o ∈ overrides → o ∈ getExpiredOverrides overrides now) ∧
    o ∉ (cleanupExpired overrides now).1 := by
  refine ⟨?_, ?_, ?_, ?_⟩
  · intro hmem
    rw [getActiveOverrides, List.mem_filter] at hmem
    simp [h] at hmem
  · intro name heq
    rw [isOverridden_eq_find] at heq
    have hp := List.find?_some heq
    rw [matchesOverride, h] at hp
    simp at hp
  · intro hmem
    rw [getExpiredOverrides, List.mem_filter]
    exact ⟨hmem, h⟩
  · intro hmem
    rw [cleanupExpired] at hmem
    simp only [List.mem_filter] at hmem
    simp [h] at hmem

/-- Witness for `c6_expired_overrides`: a ledger holding one entry that
expired at instant 10, queried at instant 100. -/
theorem c6_expired_overrides_witness :
    (⟨"old", "r", some 10, none, 0⟩ : PatternOverride)
        ∉ getActiveOverrides [⟨"old", "r", some 10, none, 0⟩] 100 ∧
    (∀ name,
        isOverridden [(⟨"old", "r", some 10, none, 0⟩ : PatternOverride)] 100
            name
          ≠ some ⟨"old", "r", some 10, none, 0⟩) ∧
    ((⟨"old", "r", some 10, none, 0⟩ : PatternOverride)
          ∈ [(⟨"old", "r", some 10, none, 0⟩ : PatternOverride)] →
      (⟨"old", "r", some 10, none, 0⟩ : PatternOverride)
        ∈ getExpiredOverrides [⟨"old", "r", some 10, none, 0⟩] 100) ∧
    (⟨"old", "r", some 10, none, 0⟩ : PatternOverride)
        ∉ (cleanupExpired [⟨"old", "r", some 10, none, 0⟩] 100).1 :=
  c6_expired_overrides [⟨"old", "r", some 10, none, 0⟩] 100
    ⟨"old", "r", some 10, none, 0⟩ (by decide)

/-!
## Claim theorems for the metrics gate
-/

/-- **C1.** For every declaration analyzed by the metrics gate, the computed
cyclomatic complexity (`complexityOf`, the value `analyzeSourceFile`
compares against the threshold and reports) equals 1 plus one increment for
every if statement, switch-case clause, switch-default clause,
for/for-in/for-of/while/do-while loop, conditional expression and
logical-AND/logical-OR binary operator among all descendants of the
declaration, counted transitively — nodes inside nested function bodies
included.  In particular a body with `N` such branch points and no nested
functions scores `N + 1`. -/
theorem c1_cyclomatic_complexity (n : TSNode) :
    complexityOf n
      = 1 + (strictDescendants n).countP (fun d => isComplexityNode d.kind) := by
  rw [complexityOf, strictDescendants, countComplexityList_eq_countP]

/-- **C3.** The gate emits exactly one parameter-count violation per
function-like declaration whose declared parameter count exceeds the
configured threshold, carrying the observed count and the threshold as its
metrics payload; declarations at or below the threshold contribute no
parameter-count violation.  Under the default configuration a 6-parameter
function yields exactly one violation with metrics count 6, max 5. -/
theorem c3_parameter_count_violations :
    (∀ cfg path roots,
        (analyzeSourceFile cfg path roots).countP isParamViolation
          = (descendantsList roots).countP (offendingParams cfg)) ∧
    (∀ cfg path n, paramCountOf (TSNode.kind n) ≤ maxParamsOf cfg →
        (nodeFailures cfg path n).countP isParamViolation = 0) ∧
    (∀ cfg path n, isFunctionLikeKind (TSNode.kind n) = true →
        maxParamsOf cfg < paramCountOf (TSNode.kind n) →
        (nodeFailures cfg path n).filter isParamViolation
          = [{ id := "ast-analysis",
               title := paramTitle (getNodeName (TSNode.kind n))
                 (paramCountOf (TSNode.kind n)) (maxParamsOf cfg),
               files := [path], hint := paramHint,
               metrics := some (.params (paramCountOf (TSNode.kind n))
                 (maxParamsOf cfg)) }]) ∧
    analyzeSourceFile ⟨none, none, none⟩ "example.ts"
        [.mk (.functionDecl (some "sixParams") 6) []]
      = [{ id := "ast-analysis", title := paramTitle "sixParams" 6 5,
           files := ["example.ts"], hint := paramHint,
           metrics := some (.params 6 5) }] := by
  refine ⟨?_, ?_, ?_, ?_⟩
  · intro cfg path roots
    exact countP_visitFailuresList cfg path _ _
      (countP_nodeFailures_param cfg path) roots
  · intro cfg path n h
    have hn : ¬ (maxParamsOf cfg < paramCountOf (TSNode.kind n)) :=
      Nat.not_lt.mpr h
    rw [countP_nodeFailures_param]
    simp [offendingParams, hn]
  · intro cfg path n h1 h2
    obtain ⟨k, cs⟩ := n
    cases k <;>
      simp_all [nodeFailures, functionFailures, classFailures,
        isFunctionLikeKind, TSNode.kind, paramCountOf, createFailure,
        List.filter_append, isParamViolation]
  · rfl

/-- **C4.** A class whose direct method-member count equals the configured
`max_methods` threshold produces no method-density violation; a class with
one more method produces exactly one violation whose title names the class,
and globally the gate emits exactly one method-density violation per
offending class. -/
theorem c4_method_density_violations :
    (∀ cfg path roots,
        (analyzeSourceFile cfg path roots).countP isMethodViolation
          = (descendantsList roots).countP (offendingMethods cfg)) ∧
    (∀ cfg path nm members,
        methodCountOf (.mk (.classDecl nm) members) = maxMethodsOf cfg →
        classFailures cfg path (.mk (.classDecl nm) members) = []) ∧
    (∀ cfg path name members,
        methodCountOf (.mk (.classDecl (some name)) members)
            = maxMethodsOf cfg + 1 →
        classFailures cfg path (.mk (.classDecl (some name)) members)
          = [{ id := "ast-analysis",
               title := methodsTitle name (maxMethodsOf cfg + 1)
                 (maxMethodsOf cfg),
               files := [path], hint := methodsHint name,
               metrics := some (.methods (maxMethodsOf cfg + 1)
                 (maxMethodsOf cfg)) }]) ∧
    (∀ name c m, strContains (methodsTitle name c m) name = true) := by
  refine ⟨?_, ?_, ?_, ?_⟩
  · intro cfg path roots
    exact countP_visitFailuresList cfg path _ _
      (countP_nodeFailures_methods cfg path) roots
  · intro cfg path nm members h
    have hn : ¬ (maxMethodsOf cfg
        < methodCountOf (.mk (.classDecl nm) members)) := by omega
    simp [classFailures, TSNode.kind, hn]
  · intro cfg path name members h
    simp [classFailures, TSNode.kind, h, createFailure]
  · intro name c m
    exact strContains_methodsTitle name c m

/-- Witness for `c3_parameter_count_violations`: a 7-parameter method under
the default configuration produces exactly the expected violation. -/
theorem c3_parameter_count_violations_witness :
    (nodeFailures ⟨none, none, none⟩ "w.ts"
        (.mk (.methodDecl "m" 7) [])).filter isParamViolation
      = [{ id := "ast-analysis", title := paramTitle "m" 7 5,
           files := ["w.ts"], hint := paramHint,
           metrics := some (.params 7 5) }] :=
  c3_parameter_count_violations.2.2.1 ⟨none, none, none⟩ "w.ts"
    (.mk (.methodDecl "m" 7) []) (by decide) (by decide)

/-!
## Claim theorems for the pattern indexer
-/

/-- Files whose read/extraction fails contribute nothing to a build; the
remaining files are untouched by dropping them. -/
theorem filterMap_buildFileResult
    (extract : String → String → Option (List PatternEntry))
    (hash : String → String) (now : String)
    (files : List (String × String)) :
    (files.filter (fun f => (extract f.1 f.2).isSome)).filterMap
        (buildFileResult extract hash now)
      = files.filterMap (buildFileResult extract hash now) := by
  induction files with
  | nil => rfl
  | cons f rest ih =>
    cases h : extract f.1 f.2 with
    | none =>
      simp [List.filter_cons, List.filterMap_cons, buildFileResult, h, ih]
    | some pats =>
      simp [List.filter_cons, List.filterMap_cons, buildFileResult, h, ih]

/-- **C8.** During `buildIndex`, a failure while reading or extracting a
single file is caught: that file contributes no patterns and no file
record, every other file is still processed exactly as it would be without
the failing one, and the run completes with a well-formed catalog whose
stats agree with its contents. -/
theorem c8_buildIndex_error_isolation
    (extract : String → String → Option (List PatternEntry))
    (hash : String → String) (rootDir : String)
    (files : List (String × String)) (now : String) (dur : Nat) :
    buildIndex extract hash rootDir files now dur
      = buildIndex extract hash rootDir
          (files.filter (fun f => (extract f.1 f.2).isSome)) now dur ∧
    (buildIndex extract hash rootDir files now dur).stats.totalPatterns
      = (buildIndex extract hash rootDir files now dur).patterns.length ∧
    (buildIndex extract hash rootDir files now dur).stats.totalFiles
      = (buildIndex extract hash rootDir files now dur).files.length := by
  refine ⟨?_, rfl, rfl⟩
  rw [buildIndex, buildIndex, filterMap_buildFileResult]

/-- A successful `mapGet` returns the record stored under the queried
path. -/
theorem mapGet_path (fs : List IndexedFile) (p : String) (ef : IndexedFile)
    (h : mapGet fs p = some ef) : ef.path = p := by
  rw [mapGet] at h
  have hp := List.find?_some h
  simpa using hp

/-- The file record emitted by the per-file update step carries the path of
the processed file. -/
theorem updateFileResult_path
    (extract : String → String → List PatternEntry)
    (hash : String → String) (existing : PatternIndex) (now : String)
    (f : String × String) :
    (updateFileResult extract hash existing now f).2.path = f.1 := by
  rw [updateFileResult]
  rcases hm : mapGet existing.files f.1 with _ | ef
  · simp [hm]
  · by_cases h2 : (ef.hash == hash f.2) = true
    · simpa [hm, h2] using mapGet_path existing.files f.1 ef hm
    · simp [hm, h2]

/-- Every pattern emitted by the per-file update step carries the path of
the processed file. -/
theorem updateFileResult_patterns_file
    (extract : String → String → List PatternEntry)
    (hash : String → String) (existing : PatternIndex) (now : String)
    (f : String × String) (hext : pathConsistent extract) :
    ∀ e ∈ (updateFileResult extract hash existing now f).1, e.file = f.1 := by
  intro e he
  have hcases : (updateFileResult extract hash existing now f).1
        = existing.patterns.filter (fun p => p.file == f.1)
      ∨ (updateFileResult extract hash existing now f).1
        = extract f.1 f.2 := by
    rw [updateFileResult]
    rcases hm : mapGet existing.files f.1 with _ | ef
    · right
      simp [hm]
    · by_cases h2 : (ef.hash == hash f.2) = true
      · left
        simp [hm, h2]
      · right
        simp [hm, h2]
  rcases hcases with hc | hc
  · rw [hc] at he
    simpa using (List.mem_filter.mp he).2
  · rw [hc] at he
    exact hext f.1 f.2 e he

/-- **C7.** A file recorded in the prior catalog but absent from the new
enumeration contributes nothing to `updateIndex`: no file record and no
pattern of the updated catalog refers to its path. -/
theorem c7_updateIndex_drops_absent_files
    (extract : String → String → List PatternEntry)
    (hash : String → String) (existing : PatternIndex) (rootDir : String)
    (files : List (String × String)) (now : String) (dur : Nat) (d : String)
    (hext : pathConsistent extract)
    (habs : ∀ f ∈ files, f.1 ≠ d) :
    (∀ fr ∈ (updateIndex extract hash existing rootDir files now dur).files,
        fr.path ≠ d) ∧
    (∀ e ∈ (updateIndex extract hash existing rootDir files now dur).patterns,
        e.file ≠ d) := by
  constructor
  · intro fr hfr
    rw [updateIndex] at hfr
    simp only [List.map_map, List.mem_map] at hfr
    obtain ⟨f, hf, hfe⟩ := hfr
    have := updateFileResult_path extract hash existing now f
    rw [Function.comp_apply] at hfe
    rw [← hfe]
    rw [this]
    exact habs f hf
  · intro e he
    rw [updateIndex] at he
    simp only [List.map_map, List.mem_flatten, List.mem_map] at he
    obtain ⟨l, ⟨f, hf, hfl⟩, hel⟩ := he
    rw [Function.comp_apply] at hfl
    rw [← hfl] at hel
    have := updateFileResult_patterns_file extract hash existing now f hext
      e hel
    rw [this]
    exact habs f hf

/-- Witness for `c7_updateIndex_drops_absent_files`: updating an index that
recorded `gone.ts` with an enumeration holding only `kept.ts` emits no
record and no pattern for `gone.ts`. -/
theorem c7_updateIndex_drops_absent_files_witness :
    (∀ fr ∈ (updateIndex (fun p _ => [⟨"i", "function", "n", p, 1, 1, "",
          "", [], "h", true, 0, "t"⟩]) (fun s => s)
        ⟨"1.0.0", "t0", "/r",
          [⟨"i0", "function", "old", "gone.ts", 1, 1, "", "", [], "h0",
            true, 0, "t0"⟩],
          ⟨1, 1, [("function", 1)], 0⟩,
          [⟨"gone.ts", "oldcode", 1, "t0"⟩]⟩
        "/r" [("kept.ts", "newcode")] "t1" 3).files,
      fr.path ≠ "gone.ts") ∧
    (∀ e ∈ (updateIndex (fun p _ => [⟨"i", "function", "n", p, 1, 1, "",
          "", [], "h", true, 0, "t"⟩]) (fun s => s)
        ⟨"1.0.0", "t0", "/r",
          [⟨"i0", "function", "old", "gone.ts", 1, 1, "", "", [], "h0",
            true, 0, "t0"⟩],
          ⟨1, 1, [("function", 1)], 0⟩,
          [⟨"gone.ts", "oldcode", 1, "t0"⟩]⟩
        "/r" [("kept.ts", "newcode")] "t1" 3).patterns,
      e.file ≠ "gone.ts") :=
  c7_updateIndex_drops_absent_files
    (fun p _ => [⟨"i", "function", "n", p, 1, 1, "", "", [], "h", true, 0,
      "t"⟩]) (fun s => s)
    ⟨"1.0.0", "t0", "/r",
      [⟨"i0", "function", "old", "gone.ts", 1, 1, "", "", [], "h0", true,
        0, "t0"⟩],
      ⟨1, 1, [("function", 1)], 0⟩,
      [⟨"gone.ts", "oldcode", 1, "t0"⟩]⟩
    "/r" [("kept.ts", "newcode")] "t1" 3 "gone.ts"
    (by intro p c e he; simp at he; rw [he])
    (by decide)

/-- A file other than `p` contributes no pattern tagged `p`. -/
theorem updateFileResult_filter_ne
    (extract : String → String → List PatternEntry)
    (hash : String → String) (existing : PatternIndex) (now : String)
    (hext : pathConsistent extract) (f : String × String) (p : String)
    (hne : f.1 ≠ p) :
    ((updateFileResult extract hash existing now f).1).filter
        (fun e => e.file == p) = [] := by
  rw [List.filter_eq_nil_iff]
  intro e he
  have := updateFileResult_patterns_file extract hash existing now f hext
    e he
  simp [this, hne]

/-- On a hash hit, the per-file update step copies the prior catalog's
patterns for the path and reuses the stored file record. -/
theorem updateFileResult_unchanged
    (extract : String → String → List PatternEntry)
    (hash : String → String) (existing : PatternIndex) (now : String)
    (p content : String) (ef : IndexedFile)
    (hef : mapGet existing.files p = some ef)
    (hh : ef.hash = hash content) :
    updateFileResult extract hash existing now (p, content)
      = (existing.patterns.filter (fun e => e.file == p), ef) := by
  rw [updateFileResult]
  simp [hef, hh]

/-- Files that all miss path `p` jointly contribute no pattern tagged
`p`. -/
theorem filter_contributions_nil
    (extract : String → String → List PatternEntry)
    (hash : String → String) (existing : PatternIndex) (now : String)
    (p : String) (hext : pathConsistent extract)
    (fs : List (String × String)) (hall : ∀ f ∈ fs, f.1 ≠ p) :
    ((fs.map
        (fun f => (updateFileResult extract hash existing now f).1)).flatten).filter
        (fun e => e.file == p) = [] := by
  induction fs with
  | nil => rfl
  | cons f rest ih =>
    simp only [List.map_cons, List.flatten_cons, List.filter_append]
    rw [updateFileResult_filter_ne extract hash existing now hext f p
      (hall f (by simp))]
    rw [ih (fun g hg => hall g (by simp [hg]))]
    rfl

/-- Over an enumeration with distinct paths containing the unchanged file
`(p, content)`, the patterns tagged `p` in the joint contribution are
exactly the prior catalog's patterns for `p`. -/
theorem filter_contributions_eq
    (extract : String → String → List PatternEntry)
    (hash : String → String) (existing : PatternIndex) (now : String)
    (p content : String) (ef : IndexedFile)
    (hext : pathConsistent extract)
    (hef : mapGet existing.files p = some ef)
    (hh : ef.hash = hash content)
    (fs : List (String × String)) (hmem : (p, content) ∈ fs)
    (hnd : (fs.map Prod.fst).Nodup) :
    ((fs.map
        (fun f => (updateFileResult extract hash existing now f).1)).flatten).filter
        (fun e => e.file == p)
      = existing.patterns.filter (fun e => e.file == p) := by
  induction fs with
  | nil => cases hmem
  | cons f rest ih =>
    rw [List.map_cons] at hnd
    rcases List.mem_cons.mp hmem with heq | hmem2
    · simp only [List.map_cons, List.flatten_cons, List.filter_append]
      have h1 : (updateFileResult extract hash existing now f).1
          = existing.patterns.filter (fun e => e.file == p) := by
        rw [← heq, updateFileResult_unchanged extract hash existing now p
          content ef hef hh]
      rw [h1]
      have hall : ∀ g ∈ rest, g.1 ≠ p := by
        intro g hg hc
        have hpmem : p ∈ rest.map Prod.fst :=
          List.mem_map.mpr ⟨g, hg, hc⟩
        have hf1 : f.1 = p := by rw [← heq]
        have hnin := (List.nodup_cons.mp hnd).1
        rw [hf1] at hnin
        exact hnin hpmem
      rw [filter_contributions_nil extract hash existing now p hext rest
        hall]
      simp [List.filter_filter]
    · have hfp : f.1 ≠ p := by
        intro hc
        exact (List.nodup_cons.mp hnd).1
          (hc ▸ List.mem_map.mpr ⟨(p, content), hmem2, rfl⟩)
      simp only [List.map_cons, List.flatten_cons, List.filter_append]
      rw [updateFileResult_filter_ne extract hash existing now hext f p hfp,
        ih hmem2 (List.nodup_cons.mp hnd).2]
      simp

/-- **C2.** When a file's fresh content hash equals the hash stored in the
prior catalog's record for the same path, `updateIndex` copies that file's
previously extracted declaration records into the new catalog verbatim
(identical ids and content hashes) and reuses the stored file record.  The
right-hand sides below never mention the extractor, so the result for that
file is independent of it — the file is not re-parsed or re-extracted. -/
theorem c2_updateIndex_reuses_unchanged
    (extract : String → String → List PatternEntry)
    (hash : String → String) (existing : PatternIndex) (rootDir : String)
    (files : List (String × String)) (now : String) (dur : Nat)
    (p content : String) (ef : IndexedFile)
    (hext : pathConsistent extract)
    (hnd : (files.map Prod.fst).Nodup)
    (hmem : (p, content) ∈ files)
    (hef : mapGet existing.files p = some ef)
    (hh : ef.hash = hash content) :
    ((updateIndex extract hash existing rootDir files now dur).patterns.filter
        (fun e => e.file == p)
      = existing.patterns.filter (fun e => e.file == p)) ∧
    ef ∈ (updateIndex extract hash existing rootDir files now dur).files := by
  constructor
  · rw [updateIndex]
    simp only [List.map_map]
    have hcomp : (fun f => (updateFileResult extract hash existing now f).1)
        = Prod.fst ∘ updateFileResult extract hash existing now := rfl
    rw [← hcomp]
    exact filter_contributions_eq extract hash existing now p content ef
      hext hef hh files hmem hnd
  · rw [updateIndex]
    simp only [List.map_map, List.mem_map]
    refine ⟨(p, content), hmem, ?_⟩
    rw [Function.comp_apply,
      updateFileResult_unchanged extract hash existing now p content ef
        hef hh]

/-- Witness for `c2_updateIndex_reuses_unchanged`: re-indexing a one-file
enumeration whose content hash matches the stored record copies the prior
pattern list verbatim and keeps the stored file record. -/
theorem c2_updateIndex_reuses_unchanged_witness :
    ((updateIndex (fun _ _ => []) (fun s => s)
        ⟨"1.0.0", "t0", "/r",
          [⟨"id1", "function", "foo", "a.ts", 1, 2, "()", "", ["foo"],
            "h1", true, 0, "t0"⟩],
          ⟨1, 1, [("function", 1)], 0⟩,
          [⟨"a.ts", "code", 1, "t0"⟩]⟩
        "/r" [("a.ts", "code")] "t1" 5).patterns.filter
        (fun e => e.file == "a.ts")
      = (⟨"1.0.0", "t0", "/r",
          [⟨"id1", "function", "foo", "a.ts", 1, 2, "()", "", ["foo"],
            "h1", true, 0, "t0"⟩],
          ⟨1, 1, [("function", 1)], 0⟩,
          [⟨"a.ts", "code", 1, "t0"⟩]⟩ : PatternIndex).patterns.filter
          (fun e => e.file == "a.ts")) ∧
    (⟨"a.ts", "code", 1, "t0"⟩ : IndexedFile)
      ∈ (updateIndex (fun _ _ => []) (fun s => s)
        ⟨"1.0.0", "t0", "/r",
          [⟨"id1", "function", "foo", "a.ts", 1, 2, "()", "", ["foo"],
            "h1", true, 0, "t0"⟩],
          ⟨1, 1, [("function", 1)], 0⟩,
          [⟨"a.ts", "code", 1, "t0"⟩]⟩
        "/r" [("a.ts", "code")] "t1" 5).files :=
  c2_updateIndex_reuses_unchanged (fun _ _ => []) (fun s => s)
    ⟨"1.0.0", "t0", "/r",
      [⟨"id1", "function", "foo", "a.ts", 1, 2, "()", "", ["foo"], "h1",
        true, 0, "t0"⟩],
      ⟨1, 1, [("function", 1)], 0⟩,
      [⟨"a.ts", "code", 1, "t0"⟩]⟩
    "/r" [("a.ts", "code")] "t1" 5 "a.ts" "code" ⟨"a.ts", "code", 1, "t0"⟩
    (by intro p c e he; cases he)
    (by decide) (by decide) (by decide) (by decide)

/-!
## Claim theorems for staleness detection and single-statement extraction
-/

/-- **C9.** (Spec-modelled: `staleness.ts` is absent from the source tree.)
A deprecation rule fires on a text exactly when its pattern occurs in the
text and its owning-library constraint is satisfied; a rule naming a
library is gated on that library being among the declared dependencies,
and a rule with no library constraint always applies.  The react-gated
sample rule stays silent without a react dependency and fires with one. -/
theorem c9_staleness_library_gate :
    (∀ rules deps text (r : DeprecationEntry),
        r ∈ firedRules rules deps text
          ↔ r ∈ rules ∧ ruleFires deps text r = true) ∧
    (∀ (deps : List String) (r : DeprecationEntry) (lib : String),
        r.library = some lib →
        (ruleApplies deps r = true ↔ lib ∈ deps)) ∧
    (∀ (deps : List String) (r : DeprecationEntry),
        r.library = none → ruleApplies deps r = true) ∧
    (∀ rules deps text,
        (checkStaleness rules deps text).2
          = (firedRules rules deps text).map mkIssue) ∧
    (checkStaleness
        [⟨"componentWillMount", some "react", "16.3.0", "useEffect",
          Severity.error, "legacy lifecycle method"⟩]
        ["express"] "componentWillMount()").2 = [] ∧
    (checkStaleness
        [⟨"componentWillMount", some "react", "16.3.0", "useEffect",
          Severity.error, "legacy lifecycle method"⟩]
        ["react"] "componentWillMount()").2
      = [⟨"componentWillMount", Severity.error, "legacy lifecycle method",
          "useEffect"⟩] := by
  refine ⟨?_, ?_, ?_, ?_, ?_, ?_⟩
  · intro rules deps text r
    rw [firedRules, List.mem_filter]
  · intro deps r lib h
    rw [ruleApplies, h]
    simp
  · intro deps r h
    rw [ruleApplies, h]
  · intro rules deps text
    rfl
  · decide
  · decide

/-- Witness for `c9_staleness_library_gate`: the library constraint of the
sample react rule is satisfied exactly when react is declared. -/
theorem c9_staleness_library_gate_witness :
    ruleApplies ["react"]
        ⟨"componentWillMount", some "react", "16.3.0", "useEffect",
          Severity.error, "legacy lifecycle method"⟩ = true
      ↔ "react" ∈ ["react"] :=
  c9_staleness_library_gate.2.1 ["react"]
    ⟨"componentWillMount", some "react", "16.3.0", "useEffect",
      Severity.error, "legacy lifecycle method"⟩ "react" rfl

/-- **C10.** The variable-statement arm of `nodeToPattern` yields the entry
of the first qualifying binding of the statement — so at most one
declaration record is ever produced per variable statement, even when
several bindings qualify.  Two concrete two-binding `const` statements
(two arrow functions; an arrow function before an all-uppercase literal
constant) each produce only the first binding's record. -/
theorem c10_variable_statement_first_binding :
    (∀ minLen hash now file vs,
        varStatementPattern minLen hash now file vs
          = (vs.declarations.find? (qualifiesDecl minLen vs.isConst)).map
              (fun d => varDeclEntry hash now file vs (d.name.getD "")
                (d.initializer.getD VarInit.otherInit))) ∧
    (∀ minLen hash now file vs,
        ((varStatementPattern minLen hash now file vs).toList).length ≤ 1) ∧
    ((varStatementPattern 2 (fun s => s) "t1" "f.ts"
        ⟨true, [⟨some "foo", some (.arrowFn false "(x)")⟩,
                ⟨some "bar", some (.arrowFn false "(y)")⟩],
          false, "", "stmt", 1, 1⟩).map (fun e => e.name)
      = some "foo") ∧
    ((varStatementPattern 2 (fun s => s) "t1" "f.ts"
        ⟨true, [⟨some "go", some (.arrowFn false "()")⟩,
                ⟨some "MAX", some .stringLit⟩],
          false, "", "stmt", 1, 1⟩).map (fun e => e.name)
      = some "go") := by
  refine ⟨?_, ?_, ?_, ?_⟩
  · intro minLen hash now file vs
    rw [varStatementPattern]
    induction vs.declarations with
    | nil => rfl
    | cons d rest ih =>
      obtain ⟨dn, di⟩ := d
      rw [varStatementLoop, List.find?_cons]
      cases dn with
      | none => cases di <;> simp [qualifiesDecl, ih]
      | some n =>
        cases di with
        | none => simp [qualifiesDecl, ih]
        | some init =>
          by_cases hlen : n.length < minLen
          · cases init <;> simp [qualifiesDecl, hlen, ih]
          · cases init with
            | arrowFn jsx sig => simp [qualifiesDecl, hlen]
            | funcExpr jsx sig => simp [qualifiesDecl, hlen]
            | stringLit =>
              by_cases hc : (vs.isConst && isAllUpper n) = true
              · simp [qualifiesDecl, hlen, hc]
              · have hcf : (vs.isConst && isAllUpper n) = false := by
                  simpa using hc
                simp [qualifiesDecl, hlen, hcf, ih]
            | numericLit =>
              by_cases hc : (vs.isConst && isAllUpper n) = true
              · simp [qualifiesDecl, hlen, hc]
              · have hcf : (vs.isConst && isAllUpper n) = false := by
                  simpa using hc
                simp [qualifiesDecl, hlen, hcf, ih]
            | objectLit =>
              by_cases hc : (vs.isConst && isAllUpper n) = true
              · simp [qualifiesDecl, hlen, hc]
              · have hcf : (vs.isConst && isAllUpper n) = false := by
                  simpa using hc
                simp [qualifiesDecl, hlen, hcf, ih]
            | otherInit => simp [qualifiesDecl, hlen, ih]
  · intro minLen hash now file vs
    cases varStatementPattern minLen hash now file vs <;> simp
  · decide
  · decide

/-- Witness for `c4_method_density_violations`: a class with 11 method
members under the default configuration (threshold 10) produces exactly the
expected violation. -/
theorem c4_method_density_violations_witness :
    classFailures ⟨none, none, none⟩ "w2.ts"
        (.mk (.classDecl (some "BigService"))
          (List.replicate 11 (.mk (.methodDecl "m" 0) [])))
      = [{ id := "ast-analysis", title := methodsTitle "BigService" 11 10,
           files := ["w2.ts"], hint := methodsHint "BigService",
           metrics := some (.methods 11 10) }] :=
  c4_method_density_violations.2.2.1 ⟨none, none, none⟩ "w2.ts" "BigService"
    (List.replicate 11 (.mk (.methodDecl "m" 0) [])) (by decide)

end Rigour
